import Mathlib

/-!
# Inventory management CLI (`inventory-management/inventory.go`)

A shallow embedding of the Go program: the `Item` record, the `Inventory`
store (a Go `map[string]Item` plus the backing-file name), its operations
`AddItem`, `UpdateQuantity`, `LoadFromFile`, `SaveToFile`, `DisplayItems`,
and the menu loop of `main`.

Conventions of the embedding.

* A method with a pointer receiver that mutates the store becomes a function
  returning the new store together with what the call did. `AddItem` and
  `UpdateQuantity` write to the map, which Go refuses with a run-time panic
  when the map is nil, so they return an `Outcome`: either the call returned
  (`none` for Go's `nil` error, `some msg` for an error whose text is `msg`)
  or it panicked. `LoadFromFile` and `SaveToFile` cannot panic and return an
  `Option String`.
* Go's `int` is taken to be 64 bits wide (the `amd64`/`arm64` targets); a
  quantity is an `Int` and the one arithmetic operation of the program, the
  `+` of `UpdateQuantity`, wraps around modulo `2^64` as Go's does.
* A `float64` is only stored, copied, parsed and printed by the program,
  never computed with; it is carried as its bit pattern.
* A Go map is either nil or an allocated finite association from keys to
  values with no ordering contract. The entries of an allocated map are
  held in an association list; every statement about a map is made through
  `mapGet`.
* The standard library is not part of the repository. The file system is a
  small state model. The JSON codec, the reading of a decimal text as a
  `float64` and the printing of a `float64` are parameters collected in
  `Lib`. `strconv.Atoi` and the pairing of value and error by
  `strconv.ParseFloat` are modelled after their documented behaviour.
-/

namespace InventoryManagement

/-! ## Data model -/

/-- Go `float64`, carried as its IEEE-754 bit pattern. -/
structure Float64 where
  bits : Nat
deriving DecidableEq, Repr

/-- The `float64` zero value, 0.0. -/
def zeroFloat : Float64 := { bits := 0 }

/-- The `float64` +Inf. -/
def posInf : Float64 := { bits := 0x7FF0000000000000 }

/-- The `float64` -Inf. -/
def negInf : Float64 := { bits := 0xFFF0000000000000 }

/-- Largest value of Go's `int` on a 64-bit target. -/
def maxInt : Int := 9223372036854775807

/-- Smallest value of Go's `int` on a 64-bit target. -/
def minInt : Int := -9223372036854775808

/-- Result of an `int` operation whose mathematical value is `x`:
two's-complement wrap-around into `[minInt, maxInt]`. -/
def wrapInt (x : Int) : Int := (x + 9223372036854775808) % 18446744073709551616 - 9223372036854775808

/-- Membership of a value in the range of Go's `int`. -/
def inIntRange (x : Int) : Prop := minInt ≤ x ∧ x ≤ maxInt

instance (x : Int) : Decidable (inIntRange x) :=
  inferInstanceAs (Decidable (minInt ≤ x ∧ x ≤ maxInt))

/-- The Go struct `Item` (source lines 11-15). -/
structure Item where
  Name : String
  Quantity : Int
  Price : Float64
deriving DecidableEq, Repr

/-- The entries of an allocated map, key by key. -/
abbrev Entries := List (String × Item)

/-- The record held under a key, if any. -/
def entriesGet : Entries → String → Option Item
  | [], _ => none
  | (k', v) :: rest, k => if k' = k then some v else entriesGet rest k

/-- The entries after a write: the value of a present key is replaced, an
absent key is added. -/
def entriesSet : Entries → String → Item → Entries
  | [], k, v => [(k, v)]
  | (k', v') :: rest, k, v =>
    if k' = k then (k, v) :: rest else (k', v') :: entriesSet rest k v

/-- Go `map[string]Item`: the nil map (the zero value of the type, also what
`json.Unmarshal` leaves when the document is `null`) or an allocated map. -/
inductive ItemMap where
  | nilMap
  | alloc (entries : Entries)
deriving DecidableEq, Repr

/-- The entries a `range` over the map visits; none for the nil map. -/
def ItemMap.entries : ItemMap → Entries
  | ItemMap.nilMap => []
  | ItemMap.alloc es => es

/-- Map read `v, exists := m[k]`: `some v` when the key is present. Reading
the nil map finds nothing. -/
def mapGet (m : ItemMap) (k : String) : Option Item :=
  match m with
  | ItemMap.nilMap => none
  | ItemMap.alloc es => entriesGet es k

/-- Map write `m[k] = v`. On the nil map Go panics with the text returned
as the error here. -/
def mapSet (m : ItemMap) (k : String) (v : Item) : Except String ItemMap :=
  match m with
  | ItemMap.nilMap => Except.error "assignment to entry in nil map"
  | ItemMap.alloc es => Except.ok (ItemMap.alloc (entriesSet es k v))

/-- The Go struct `Inventory` (source lines 17-20). -/
structure Inventory where
  items : ItemMap
  file : String
deriving DecidableEq, Repr

/-- Source `NewInventory` (lines 22-27): `make(map[string]Item)` is an
allocated map with no entry. -/
def NewInventory (filename : String) : Inventory :=
  { items := ItemMap.alloc [], file := filename }

/-! ## Store operations -/

/-- How a call of a store method ended: it returned its `error` result, or
it panicked with the given text. -/
inductive Outcome where
  | returned (err : Option String)
  | panicked (msg : String)
deriving DecidableEq, Repr

/-- The call returned a non-nil error. -/
def Outcome.isError : Outcome → Bool
  | Outcome.returned (some _) => true
  | _ => false

/-- The call panicked. -/
def Outcome.isPanic : Outcome → Bool
  | Outcome.panicked _ => true
  | _ => false

/-- Source `AddItem` (lines 49-60). -/
def AddItem (inv : Inventory) (name : String) (quantity : Int) (price : Float64) :
    Inventory × Outcome :=
  match mapGet inv.items name with
  | some _ => (inv, Outcome.returned (some ("Item " ++ name ++ " already present")))
  | none =>
    match mapSet inv.items name { Name := name, Quantity := quantity, Price := price } with
    | Except.error msg => (inv, Outcome.panicked msg)
    | Except.ok items => ({ inv with items := items }, Outcome.returned none)

/-- Source `UpdateQuantity` (lines 62-75). -/
def UpdateQuantity (inv : Inventory) (name : String) (addedQuant : Int) :
    Inventory × Outcome :=
  if addedQuant ≤ 0 then
    (inv, Outcome.returned (some "quantity added should be greater than 0"))
  else
    match mapGet inv.items name with
    | none => (inv, Outcome.returned (some ("Item " ++ name ++ " not found")))
    | some item =>
      let existingQunat := item.Quantity
      let updatedQuant := wrapInt (existingQunat + addedQuant)
      match mapSet inv.items name { item with Quantity := updatedQuant } with
      | Except.error msg => (inv, Outcome.panicked msg)
      | Except.ok items => ({ inv with items := items }, Outcome.returned none)

/-- Key/name consistency: every key is mapped to a record named after it. -/
def KeyNameConsistent (inv : Inventory) : Prop :=
  ∀ k item, mapGet inv.items k = some item → item.Name = k

/-- One call of a mutating store operation. -/
inductive Op where
  | add (name : String) (quantity : Int) (price : Float64)
  | update (name : String) (addedQuant : Int)
deriving DecidableEq, Repr

/-- The store after one call, whether it succeeded or failed. -/
def applyOp (inv : Inventory) : Op → Inventory
  | Op.add name quantity price => (AddItem inv name quantity price).1
  | Op.update name addedQuant => (UpdateQuantity inv name addedQuant).1

/-- The store after a finite sequence of calls, first call first. -/
def runOps (inv : Inventory) (ops : List Op) : Inventory :=
  ops.foldl applyOp inv

/-! ## Standard library and operating system -/

/-- An `error` returned by package `os`: its text and the answer of
`os.IsNotExist` on it. -/
structure OsError where
  msg : String
  notExist : Bool
deriving DecidableEq, Repr

/-- What the operating system holds under one path: nothing, a regular file
with its contents and permission bits, or something that can be neither read
nor written by the process (the error says why). -/
inductive FileState where
  | absent
  | present (data : String) (perm : Nat)
  | blocked (err : OsError)
deriving DecidableEq, Repr

/-- The file system, path by path. -/
abbrev FileSystem := String → FileState

/-- Library call `os.ReadFile(name)`. -/
def osReadFile (fs : FileSystem) (name : String) : Except OsError String :=
  match fs name with
  | FileState.absent =>
    Except.error { msg := "open " ++ name ++ ": no such file or directory", notExist := true }
  | FileState.present data _ => Except.ok data
  | FileState.blocked err => Except.error err

/-- Library call `os.WriteFile(name, data, perm)`: a missing file is created
with the requested permission bits (the process umask is not modelled), an
existing file is truncated and keeps its bits. -/
def osWriteFile (fs : FileSystem) (name : String) (data : String) (perm : Nat) :
    FileSystem × Option OsError :=
  match fs name with
  | FileState.absent =>
    (fun q => if q = name then FileState.present data perm else fs q, none)
  | FileState.present _ old =>
    (fun q => if q = name then FileState.present data old else fs q, none)
  | FileState.blocked err => (fs, some err)

/-- What `strconv.ParseFloat(s, 64)` makes of a text: not a number; a number
too large in magnitude for a `float64`, with its sign; or a number, with the
`float64` nearest to it. -/
inductive FloatText where
  | malformed
  | overflow (negative : Bool)
  | number (x : Float64)
deriving DecidableEq, Repr

/-- The library functions the program calls whose behaviour is not modelled:
`json.MarshalIndent(items, "", "    ")`, `json.Unmarshal(data, &items)` (given
the map it decodes into), the reading of a text as a `float64` inside
`strconv.ParseFloat`, and the `%v` printing of a `float64`. -/
structure Lib where
  jsonMarshalIndent : ItemMap → Except String String
  jsonUnmarshal : String → ItemMap → ItemMap × Option String
  floatText : String → FloatText
  formatFloat : Float64 → String

/-- The two errors of package `strconv`. -/
inductive NumError where
  | ErrSyntax
  | ErrRange
deriving DecidableEq, Repr

/-- Library call `strconv.ParseFloat(s, 64)`: the value and the error it
returns. A text that is not a number gives 0 and a syntax error; a number
out of range gives the infinity of its sign and a range error. -/
def ParseFloat (lib : Lib) (s : String) : Float64 × Option NumError :=
  match lib.floatText s with
  | FloatText.malformed => (zeroFloat, some NumError.ErrSyntax)
  | FloatText.overflow false => (posInf, some NumError.ErrRange)
  | FloatText.overflow true => (negInf, some NumError.ErrRange)
  | FloatText.number x => (x, none)

/-- Largest `uint64`. -/
def maxUint64 : Nat := 18446744073709551615

/-- The digit loop of `strconv.ParseUint(s, 10, 64)`: a byte that is not a
decimal digit is a syntax error with value 0; an accumulator that would leave
`uint64` is a range error with value `maxUint64`, reported as soon as it is
met. -/
def parseUintLoop : List Char → Nat → Nat × Option NumError
  | [], n => (n, none)
  | c :: cs, n =>
    if 48 ≤ c.toNat ∧ c.toNat ≤ 57 then
      if n ≥ maxUint64 / 10 + 1 then (maxUint64, some NumError.ErrRange)
      else if n * 10 + (c.toNat - 48) > maxUint64 then (maxUint64, some NumError.ErrRange)
      else parseUintLoop cs (n * 10 + (c.toNat - 48))
    else (0, some NumError.ErrSyntax)

/-- Library call `strconv.ParseUint(s, 10, 64)` on the characters of `s`. -/
def ParseUint (s : List Char) : Nat × Option NumError :=
  match s with
  | [] => (0, some NumError.ErrSyntax)
  | _ => parseUintLoop s 0

/-- The range check of `strconv.ParseInt(s, 10, 0)` once the sign is taken
off: a syntax error gives 0; a magnitude that does not fit `int` gives the
nearest bound together with a range error. -/
def parseIntSigned (neg : Bool) (digits : List Char) : Int × Option NumError :=
  match ParseUint digits with
  | (_, some NumError.ErrSyntax) => (0, some NumError.ErrSyntax)
  | (un, _) =>
    if neg = false ∧ un ≥ 9223372036854775808 then (maxInt, some NumError.ErrRange)
    else if neg = true ∧ un > 9223372036854775808 then (minInt, some NumError.ErrRange)
    else if neg then (-(un : Int), none)
    else ((un : Int), none)

/-- Library call `strconv.Atoi(s)` on a 64-bit target: the value and the
error it returns. (Its fast path for short strings computes the same result
as `strconv.ParseInt(s, 10, 0)`, which is what is written here.) -/
def Atoi (s : String) : Int × Option NumError :=
  match s.data with
  | [] => (0, some NumError.ErrSyntax)
  | '+' :: rest => parseIntSigned false rest
  | '-' :: rest => parseIntSigned true rest
  | cs => parseIntSigned false cs

/-- A decimal digit, `0` to `9`. -/
def isDecimalDigit (c : Char) : Prop := 48 ≤ c.toNat ∧ c.toNat ≤ 57

instance (c : Char) : Decidable (isDecimalDigit c) :=
  inferInstanceAs (Decidable (48 ≤ c.toNat ∧ c.toNat ≤ 57))

/-- The natural number a sequence of decimal digits denotes. -/
def decimalValue (digits : List Char) : Nat :=
  digits.foldl (fun n c => n * 10 + (c.toNat - 48)) 0

/-! ## Load, save, display -/

/-- Source `LoadFromFile` (lines 29-47). -/
def LoadFromFile (lib : Lib) (fs : FileSystem) (inv : Inventory) : Inventory × Option String :=
  match osReadFile fs inv.file with
  | Except.error err =>
    if err.notExist then ({ inv with items := ItemMap.alloc [] }, none)
    else (inv, some err.msg)
  | Except.ok data =>
    if data.length = 0 then ({ inv with items := ItemMap.alloc [] }, none)
    else ({ inv with items := (lib.jsonUnmarshal data inv.items).1 }, (lib.jsonUnmarshal data inv.items).2)

/-- What the process has done to the outside: the file system and the chunks
written to standard output, oldest first. -/
structure World where
  fs : FileSystem
  stdout : List String

/-- Library call `fmt.Println(s)` and `fmt.Printf` once its text is built. -/
def World.print (w : World) (s : String) : World :=
  { w with stdout := w.stdout ++ [s] }

/-- Permission argument of the `os.WriteFile` call of `SaveToFile`
(line 90). -/
def savePerm : Nat := 0o666

/-- Source `SaveToFile` (lines 77-95). The store itself is not modified. -/
def SaveToFile (lib : Lib) (w : World) (inv : Inventory) : World × Option String :=
  match lib.jsonMarshalIndent inv.items with
  | Except.error err => (w, some ("error marshaling data: " ++ err))
  | Except.ok data =>
    let w₁ := w.print ("Saving data: " ++ data ++ "\n")
    match osWriteFile w₁.fs inv.file data savePerm with
    | (_, some err) => (w₁, some ("error writing file: " ++ err.msg))
    | (fs₂, none) => ({ w₁ with fs := fs₂ }, none)

/-- Source `DisplayItems` (lines 97-102); the records are visited in the
order the representation holds them, one of the orders Go may choose. -/
def DisplayItems (lib : Lib) (w : World) (inv : Inventory) : World × Option String :=
  (inv.items.entries.foldl
    (fun acc kv => acc.print ("item: " ++ kv.2.Name ++ ", quantity: " ++ toString kv.2.Quantity ++
      ", price: " ++ lib.formatFloat kv.2.Price ++ " \n"))
    w, none)

/-- State of the running process: the store, the outside world, the lines
still to be read from standard input, whether the process has ended, and the
text of the panic that ended it, if one did. -/
structure Proc where
  inventory : Inventory
  world : World
  stdin : List String
  exited : Bool
  crashed : Option String

/-- Output of `fmt.Println(s)`. -/
def Proc.println (p : Proc) (s : String) : Proc :=
  { p with world := p.world.print (s ++ "\n") }

/-- Line read by `scanner.Scan(); scanner.Text()`: the next line, or the
empty string at end of input. -/
def Proc.text (p : Proc) : String :=
  match p.stdin with
  | [] => ""
  | l :: _ => l

/-- Process after `scanner.Scan()`. -/
def Proc.scan (p : Proc) : Proc :=
  { p with stdin := p.stdin.tail }

/-- Menu option 1 (source lines 124-142). A panic inside `AddItem` ends the
process before anything more is written to standard output. -/
def caseAdd (lib : Lib) (p : Proc) : Proc :=
  let p₁ := p.println "Enter item name"
  let name := p₁.text
  let p₂ := p₁.scan.println "Enter quantity"
  let quantity := (Atoi p₂.text).1
  let p₃ := p₂.scan.println "Enter price"
  let price := (ParseFloat lib p₃.text).1
  let p₄ := p₃.scan
  let r := AddItem p₄.inventory name quantity price
  let p₅ := { p₄ with inventory := r.1 }
  match r.2 with
  | Outcome.panicked msg => { p₅ with exited := true, crashed := some msg }
  | Outcome.returned (some err) => { p₅ with world := p₅.world.print ("Error: " ++ err ++ " \n") }
  | Outcome.returned none => p₅.println "Item added successfully"

/-- Menu option 2 (source lines 144-157), with a panic treated as in
option 1. -/
def caseUpdate (p : Proc) : Proc :=
  let p₁ := p.println "Enter item name"
  let name := p₁.text
  let p₂ := p₁.scan.println "Enter quantity"
  let quantityAdded := (Atoi p₂.text).1
  let p₃ := p₂.scan
  let r := UpdateQuantity p₃.inventory name quantityAdded
  let p₄ := { p₃ with inventory := r.1 }
  match r.2 with
  | Outcome.panicked msg => { p₄ with exited := true, crashed := some msg }
  | Outcome.returned (some err) => { p₄ with world := p₄.world.print ("Error: " ++ err ++ " \n") }
  | Outcome.returned none => p₄.println "Quantity updated successfully"

/-- Menu option 3 (source lines 159-160). -/
def caseDisplay (lib : Lib) (p : Proc) : Proc :=
  { p with world := (DisplayItems lib p.world p.inventory).1 }

/-- Menu option 4 (source lines 162-167). -/
def caseSave (lib : Lib) (p : Proc) : Proc :=
  let r := SaveToFile lib p.world p.inventory
  let p₁ := { p with world := r.1 }
  let p₂ :=
    match r.2 with
    | some err => { p₁ with world := p₁.world.print ("Error: " ++ err ++ " \n") }
    | none => p₁
  p₂.println "File saved successfully"

/-- The menu printed at the top of each iteration (source lines 113-119). -/
def printMenu (p : Proc) : Proc :=
  (((((p.println "1. Add new item").println "2. Update quantity").println
    "3. Display inventory").println "4. Save the file").println "5. Exit").println
    "Choose an option"

/-- One iteration of the loop of `main` (source lines 112-176). -/
def menuStep (lib : Lib) (p : Proc) : Proc :=
  let p₁ := printMenu p
  let choice := p₁.text
  let p₂ := p₁.scan
  if choice = "1" then caseAdd lib p₂
  else if choice = "2" then caseUpdate p₂
  else if choice = "3" then caseDisplay lib p₂
  else if choice = "4" then caseSave lib p₂
  else if choice = "5" then { p₂.println "Exiting..." with exited := true }
  else p₂.println "Invalid choice"

/-- The loop of `main`, cut after `fuel` iterations; it stops once the
process has ended. -/
def mainLoop (lib : Lib) : Nat → Proc → Proc
  | 0, p => p
  | fuel + 1, p => if p.exited then p else mainLoop lib fuel (menuStep lib p)

/-- Source `main` (lines 104-177) run for at most `fuel` menu iterations. -/
def main (lib : Lib) (fuel : Nat) (fs : FileSystem) (stdin : List String) : Proc :=
  let r := LoadFromFile lib fs (NewInventory "inventory.json")
  let w : World := { fs := fs, stdout := [] }
  let w₁ := match r.2 with
    | some _ => w.print "Error creating/reading the inventory file\n"
    | none => w
  mainLoop lib fuel
    { inventory := r.1, world := w₁, stdin := stdin, exited := false, crashed := none }

/-! ## Example values -/

/-- The bits of the `float64` 2.5. -/
def price2_5 : Float64 := { bits := 0x4004000000000000 }

/-- The bits of the `float64` 1.0. -/
def price1_0 : Float64 := { bits := 0x3FF0000000000000 }

/-- The bits of the `float64` -1.5. -/
def priceNeg1_5 : Float64 := { bits := 0xBFF8000000000000 }

/-- The record of `widget` at quantity 5 and price 2.50. -/
def widgetRecord : Item := { Name := "widget", Quantity := 5, Price := price2_5 }

/-- What `json.MarshalIndent` with a four-space indent writes for the map
holding `widgetRecord` under `widget`. -/
def widgetJson : String :=
  "\x7b\n    \"widget\": \x7b\n        \"Name\": \"widget\",\n        \"Quantity\": 5,\n        \"Price\": 2.5\n    \x7d\n\x7d"

/-- A library instance for evaluating the model on examples. It answers as
the real library does on the few inputs the examples use. Encoding: the nil
map is `null`, the empty map is `{}`, the map holding only `widgetRecord` is
`widgetJson`. Decoding: `null` sets the map to nil, `{}` allocates a nil map
and adds nothing, `widgetJson` allocates a nil map and writes `widget`. Float
texts: `2.5` is a number, `1e999` is too large. Every other input is treated
as an encoding error, a malformed document or a malformed number. -/
def sampleLib : Lib where
  jsonMarshalIndent := fun m =>
    if m = ItemMap.nilMap then Except.ok "null"
    else if m = ItemMap.alloc [] then Except.ok "{}"
    else if m = ItemMap.alloc [("widget", widgetRecord)] then Except.ok widgetJson
    else Except.error "not covered by the sample"
  jsonUnmarshal := fun data into =>
    if data = "null" then (ItemMap.nilMap, none)
    else if data = "{}" then (ItemMap.alloc into.entries, none)
    else if data = widgetJson then
      (ItemMap.alloc (entriesSet into.entries "widget" widgetRecord), none)
    else (into, some "not covered by the sample")
  floatText := fun s =>
    if s = "2.5" then FloatText.number price2_5
    else if s = "1e999" then FloatText.overflow false
    else FloatText.malformed
  formatFloat := fun x =>
    if x = price2_5 then "2.5" else "?"

/-- The store after `AddItem("widget", 5, 2.50)` on a new inventory. -/
def widgetStore : Inventory :=
  (AddItem (NewInventory "inventory.json") "widget" 5 price2_5).1

/-- A store whose one record holds the largest `int` as its quantity, as
`AddItem("widget", 9223372036854775807, 2.50)` leaves it. -/
def fullStore : Inventory :=
  (AddItem (NewInventory "inventory.json") "widget" 9223372036854775807 price2_5).1

/-- A store whose map is nil, as `LoadFromFile` leaves it when the backing
file holds the JSON document `null`. -/
def nilStore : Inventory :=
  { items := ItemMap.nilMap, file := "inventory.json" }

/-- A file system holding nothing. -/
def emptyFs : FileSystem := fun _ => FileState.absent

/-- A file system whose `inventory.json` exists with zero length. -/
def blankFileFs : FileSystem :=
  fun q => if q = "inventory.json" then FileState.present "" 0o644 else FileState.absent

/-- A file system whose `inventory.json` holds the JSON document `null`. -/
def nullFileFs : FileSystem :=
  fun q => if q = "inventory.json" then FileState.present "null" 0o644 else FileState.absent

/-- A file system in which `inventory.json` can be neither read nor written. -/
def deniedFs : FileSystem :=
  fun q =>
    if q = "inventory.json" then
      FileState.blocked { msg := "open inventory.json: permission denied", notExist := false }
    else FileState.absent

/-- The outside world before anything is written: no file, no output. -/
def blankWorld : World := { fs := emptyFs, stdout := [] }

/-- A process at the top of the loop with an empty store, `inventory.json`
not writable, and `4` as the next input line. -/
def saveDeniedProc : Proc :=
  { inventory := NewInventory "inventory.json"
    world := { fs := deniedFs, stdout := [] }
    stdin := ["4"]
    exited := false
    crashed := none }

/-- A process inside option 2 holding `widget` at 5, about to read the name
`widget` and the quantity line `9223372036854775808`. -/
def bigUpdateProc : Proc :=
  { inventory := widgetStore
    world := { fs := emptyFs, stdout := [] }
    stdin := ["widget", "9223372036854775808"]
    exited := false
    crashed := none }

/-- A process inside option 2 holding `widget` at 5, about to read the name
`widget` and the quantity line `five`. -/
def wordUpdateProc : Proc :=
  { inventory := widgetStore
    world := { fs := emptyFs, stdout := [] }
    stdin := ["widget", "five"]
    exited := false
    crashed := none }

/-- A process inside option 1 with an empty store, about to read the name
`gadget`, the quantity line `-9223372036854775809` and the price line
`1e999`. -/
def bigAddProc : Proc :=
  { inventory := NewInventory "inventory.json"
    world := { fs := emptyFs, stdout := [] }
    stdin := ["gadget", "-9223372036854775809", "1e999"]
    exited := false
    crashed := none }

/-- A process inside option 1 with an empty store, about to read the name
`gadget`, the quantity line `12x` and the price line `cheap`. -/
def wordAddProc : Proc :=
  { inventory := NewInventory "inventory.json"
    world := { fs := emptyFs, stdout := [] }
    stdin := ["gadget", "12x", "cheap"]
    exited := false
    crashed := none }

/-! ## Map lemmas -/

theorem entriesGet_entriesSet_same (m : Entries) (k : String) (v : Item) :
    entriesGet (entriesSet m k v) k = some v := by
  induction m with
  | nil => simp [entriesSet, entriesGet]
  | cons p rest ih =>
    obtain ⟨k', v'⟩ := p
    by_cases h : k' = k
    · simp [entriesSet, entriesGet, h]
    · simp [entriesSet, entriesGet, h, ih]

theorem entriesGet_entriesSet_other (m : Entries) (k k' : String) (v : Item) (h : k' ≠ k) :
    entriesGet (entriesSet m k v) k' = entriesGet m k' := by
  induction m with
  | nil => simp [entriesSet, entriesGet, h.symm]
  | cons p rest ih =>
    obtain ⟨k₀, v₀⟩ := p
    by_cases h₀ : k₀ = k
    · subst h₀
      simp [entriesSet, entriesGet, h.symm]
    · by_cases h₁ : k₀ = k'
      · subst h₁
        simp [entriesSet, entriesGet, h]
      · simp [entriesSet, entriesGet, h₀, h₁, ih]

theorem mapGet_alloc (es : Entries) (k : String) :
    mapGet (ItemMap.alloc es) k = entriesGet es k := rfl

theorem alloc_of_mapGet (m : ItemMap) (k : String) (v : Item) (h : mapGet m k = some v) :
    ∃ es, m = ItemMap.alloc es := by
  cases m with
  | nilMap => simp [mapGet] at h
  | alloc es => exact ⟨es, rfl⟩

theorem alloc_of_ne_nil (m : ItemMap) (h : m ≠ ItemMap.nilMap) : ∃ es, m = ItemMap.alloc es := by
  cases m with
  | nilMap => exact absurd rfl h
  | alloc es => exact ⟨es, rfl⟩

theorem wrapInt_of_inRange (x : Int) (h : inIntRange x) : wrapInt x = x := by
  unfold inIntRange minInt maxInt at h
  unfold wrapInt
  have h1 : (x + 9223372036854775808) % 18446744073709551616 = x + 9223372036854775808 :=
    Int.emod_eq_of_lt (by omega) (by omega)
  omega

theorem wrapInt_inRange (x : Int) : inIntRange (wrapInt x) := by
  unfold inIntRange minInt maxInt wrapInt
  have h1 := Int.emod_nonneg (x + 9223372036854775808) (by norm_num : (18446744073709551616 : Int) ≠ 0)
  have h2 := Int.emod_lt_of_pos (x + 9223372036854775808) (by norm_num : (0 : Int) < 18446744073709551616)
  constructor <;> omega

theorem AddItem_of_present (inv : Inventory) (name : String) (quantity : Int) (price : Float64)
    (it : Item) (h : mapGet inv.items name = some it) :
    AddItem inv name quantity price
      = (inv, Outcome.returned (some ("Item " ++ name ++ " already present"))) := by
  unfold AddItem
  rw [h]

theorem AddItem_of_alloc (file : String) (es : Entries) (name : String) (quantity : Int)
    (price : Float64) (h : entriesGet es name = none) :
    AddItem { items := ItemMap.alloc es, file := file } name quantity price
      = ({ items := ItemMap.alloc
            (entriesSet es name { Name := name, Quantity := quantity, Price := price }),
           file := file }, Outcome.returned none) := by
  simp only [AddItem, mapGet, h, mapSet]

theorem AddItem_of_nil (file : String) (name : String) (quantity : Int) (price : Float64) :
    AddItem { items := ItemMap.nilMap, file := file } name quantity price
      = ({ items := ItemMap.nilMap, file := file },
          Outcome.panicked "assignment to entry in nil map") := by
  simp only [AddItem, mapGet, mapSet]

theorem UpdateQuantity_of_present (file : String) (es : Entries) (name : String) (delta : Int)
    (item : Item) (hpos : 0 < delta) (h : entriesGet es name = some item) :
    UpdateQuantity { items := ItemMap.alloc es, file := file } name delta
      = ({ items := ItemMap.alloc (entriesSet es name
            { Name := item.Name, Quantity := wrapInt (item.Quantity + delta), Price := item.Price }),
           file := file }, Outcome.returned none) := by
  have hnot : ¬ delta ≤ 0 := not_le.mpr hpos
  simp only [UpdateQuantity, hnot, if_false, mapGet, h, mapSet]

theorem UpdateQuantity_of_absent (inv : Inventory) (name : String) (delta : Int)
    (hpos : 0 < delta) (h : mapGet inv.items name = none) :
    UpdateQuantity inv name delta
      = (inv, Outcome.returned (some ("Item " ++ name ++ " not found"))) := by
  have hnot : ¬ delta ≤ 0 := not_le.mpr hpos
  simp only [UpdateQuantity, hnot, if_false, h]

theorem UpdateQuantity_of_nonpos (inv : Inventory) (name : String) (delta : Int)
    (h : delta ≤ 0) :
    UpdateQuantity inv name delta
      = (inv, Outcome.returned (some "quantity added should be greater than 0")) := by
  simp only [UpdateQuantity, h, if_true]

/-! ## AddItem -/

/-- C1: when `name` is already a key, `AddItem` returns the duplicate error
for every quantity and price and leaves the inventory as it was: the store is
the same value, so every key reads the same record and no key is added. -/
theorem AddItem_duplicate (inv : Inventory) (name : String) (quantity : Int) (price : Float64)
    (h : (mapGet inv.items name).isSome = true) :
    (AddItem inv name quantity price).2
      = Outcome.returned (some ("Item " ++ name ++ " already present")) ∧
    (AddItem inv name quantity price).1 = inv ∧
    ∀ k, mapGet (AddItem inv name quantity price).1.items k = mapGet inv.items k := by
  cases hg : mapGet inv.items name with
  | none => simp [hg] at h
  | some it =>
    rw [AddItem_of_present inv name quantity price it hg]
    exact ⟨rfl, rfl, fun _ => rfl⟩

/-- C1, on the spec's example: a second `AddItem("widget", 1, 1.0)` fails as a
duplicate and `widget` still reads quantity 5 and price 2.50. -/
theorem AddItem_duplicate_witness :
    (mapGet widgetStore.items "widget").isSome = true ∧
    (AddItem widgetStore "widget" 1 price1_0).2
      = Outcome.returned (some "Item widget already present") ∧
    mapGet (AddItem widgetStore "widget" 1 price1_0).1.items "widget"
      = some { Name := "widget", Quantity := 5, Price := price2_5 } :=
  have h := AddItem_duplicate widgetStore "widget" 1 price1_0 (by decide)
  ⟨by decide, h.1, by rw [h.2.1]; decide⟩

/-- C2 as stated fails: on the store whose map is nil, which is what
`LoadFromFile` leaves when the backing file holds `null`, `widget` is not a
key, yet `AddItem("widget", 5, 2.50)` does not return: the map write panics
and no record is stored. Run through `main`, the process ends on that panic
without printing a result line. -/
theorem AddItem_nil_counterexample :
    LoadFromFile sampleLib nullFileFs (NewInventory "inventory.json") = (nilStore, none) ∧
    mapGet nilStore.items "widget" = none ∧
    (AddItem nilStore "widget" 5 price2_5).2
      = Outcome.panicked "assignment to entry in nil map" ∧
    (AddItem nilStore "widget" 5 price2_5).2 ≠ Outcome.returned none ∧
    mapGet (AddItem nilStore "widget" 5 price2_5).1.items "widget" = none ∧
    (main sampleLib 1 nullFileFs ["1", "widget", "5", "2.5"]).crashed
      = some "assignment to entry in nil map" ∧
    (main sampleLib 1 nullFileFs ["1", "widget", "5", "2.5"]).world.stdout
      = ["1. Add new item\n", "2. Update quantity\n", "3. Display inventory\n",
         "4. Save the file\n", "5. Exit\n", "Choose an option\n", "Enter item name\n",
         "Enter quantity\n", "Enter price\n"] := by
  decide

/-- C2, amended: when the map of the inventory is allocated (not nil) and
`name` is not a key, `AddItem` returns no error for every quantity and price,
negative ones included; afterwards the map is still allocated, `name` reads
the record made of exactly the given name, quantity and price, every other
key reads what it read before (so none is added or removed), and the file
name is kept. -/
theorem AddItem_fresh (inv : Inventory) (name : String) (quantity : Int) (price : Float64)
    (halloc : inv.items ≠ ItemMap.nilMap)
    (h : mapGet inv.items name = none) :
    (AddItem inv name quantity price).2 = Outcome.returned none ∧
    (AddItem inv name quantity price).1.items ≠ ItemMap.nilMap ∧
    mapGet (AddItem inv name quantity price).1.items name
      = some { Name := name, Quantity := quantity, Price := price } ∧
    (∀ k, k ≠ name → mapGet (AddItem inv name quantity price).1.items k = mapGet inv.items k) ∧
    (AddItem inv name quantity price).1.file = inv.file := by
  obtain ⟨items, file⟩ := inv
  obtain ⟨es, rfl⟩ := alloc_of_ne_nil items halloc
  rw [AddItem_of_alloc file es name quantity price h]
  refine ⟨rfl, ?_, entriesGet_entriesSet_same _ _ _, ?_, rfl⟩
  · intro hc
    cases hc
  · intro k hk
    exact entriesGet_entriesSet_other _ _ _ _ hk

/-- C2, amended, on a negative quantity and a negative price added next to
`widget`. -/
theorem AddItem_fresh_witness :
    widgetStore.items ≠ ItemMap.nilMap ∧
    mapGet widgetStore.items "gadget" = none ∧
    (AddItem widgetStore "gadget" (-3) priceNeg1_5).2 = Outcome.returned none ∧
    mapGet (AddItem widgetStore "gadget" (-3) priceNeg1_5).1.items "gadget"
      = some { Name := "gadget", Quantity := -3, Price := priceNeg1_5 } ∧
    mapGet (AddItem widgetStore "gadget" (-3) priceNeg1_5).1.items "widget"
      = mapGet widgetStore.items "widget" :=
  have h := AddItem_fresh widgetStore "gadget" (-3) priceNeg1_5 (by decide) (by decide)
  ⟨by decide, by decide, h.1, h.2.2.1, h.2.2.2.1 "widget" (by decide)⟩

/-! ## UpdateQuantity -/

/-- C3 as stated fails: on a store whose `widget` holds the largest `int`,
`UpdateQuantity("widget", 1)` succeeds and leaves the smallest `int`, which is
not the integer sum of the old quantity and the delta. -/
theorem UpdateQuantity_sum_counterexample :
    mapGet fullStore.items "widget"
      = some { Name := "widget", Quantity := 9223372036854775807, Price := price2_5 } ∧
    (0 : Int) < 1 ∧
    (UpdateQuantity fullStore "widget" 1).2 = Outcome.returned none ∧
    mapGet (UpdateQuantity fullStore "widget" 1).1.items "widget"
      = some { Name := "widget", Quantity := -9223372036854775808, Price := price2_5 } ∧
    (-9223372036854775808 : Int) ≠ 9223372036854775807 + 1 := by
  decide

/-- C3, amended: for a store containing `name` and a delta above 0,
`UpdateQuantity` returns no error and replaces the record's quantity with the
64-bit wrap-around of `existing + delta`, which is the integer sum whenever
that sum is in the range of `int`; name and price of the record, every other
record, the set of keys and the file name are unchanged. -/
theorem UpdateQuantity_success (inv : Inventory) (name : String) (delta : Int) (item : Item)
    (hget : mapGet inv.items name = some item) (hpos : 0 < delta) :
    (UpdateQuantity inv name delta).2 = Outcome.returned none ∧
    mapGet (UpdateQuantity inv name delta).1.items name
      = some { Name := item.Name, Quantity := wrapInt (item.Quantity + delta), Price := item.Price } ∧
    (inIntRange (item.Quantity + delta) →
      mapGet (UpdateQuantity inv name delta).1.items name
        = some { Name := item.Name, Quantity := item.Quantity + delta, Price := item.Price }) ∧
    (∀ k, k ≠ name → mapGet (UpdateQuantity inv name delta).1.items k = mapGet inv.items k) ∧
    (∀ k, (mapGet (UpdateQuantity inv name delta).1.items k).isSome = (mapGet inv.items k).isSome) ∧
    (UpdateQuantity inv name delta).1.file = inv.file := by
  obtain ⟨items, file⟩ := inv
  obtain ⟨es, rfl⟩ := alloc_of_mapGet items name item hget
  have hget' : entriesGet es name = some item := hget
  rw [UpdateQuantity_of_present file es name delta item hpos hget']
  have hset : mapGet (ItemMap.alloc (entriesSet es name
        { Name := item.Name, Quantity := wrapInt (item.Quantity + delta), Price := item.Price }))
        name
      = some { Name := item.Name, Quantity := wrapInt (item.Quantity + delta), Price := item.Price } :=
    entriesGet_entriesSet_same _ _ _
  have hother : ∀ k, k ≠ name →
      mapGet (ItemMap.alloc (entriesSet es name
        { Name := item.Name, Quantity := wrapInt (item.Quantity + delta), Price := item.Price })) k
      = mapGet (ItemMap.alloc es) k :=
    fun k hk => entriesGet_entriesSet_other _ _ _ _ hk
  refine ⟨rfl, hset, ?_, hother, ?_, rfl⟩
  · intro hr
    show mapGet (ItemMap.alloc _) name = _
    rw [hset, wrapInt_of_inRange _ hr]
  · intro k
    show (mapGet (ItemMap.alloc _) k).isSome = (mapGet (ItemMap.alloc es) k).isSome
    by_cases hk : k = name
    · subst hk
      rw [hset, hget]
      rfl
    · rw [hother k hk]

/-- C3, on the spec's example: `widget` at quantity 5 updated by 3 reads 8,
with its name and price kept. -/
theorem UpdateQuantity_success_witness :
    mapGet widgetStore.items "widget"
      = some { Name := "widget", Quantity := 5, Price := price2_5 } ∧
    (0 : Int) < 3 ∧
    (UpdateQuantity widgetStore "widget" 3).2 = Outcome.returned none ∧
    mapGet (UpdateQuantity widgetStore "widget" 3).1.items "widget"
      = some { Name := "widget", Quantity := 8, Price := price2_5 } :=
  have h := UpdateQuantity_success widgetStore "widget" 3
    { Name := "widget", Quantity := 5, Price := price2_5 } (by decide) (by decide)
  ⟨by decide, by decide, h.1, h.2.2.1 (by decide)⟩

/-- C4: `UpdateQuantity` returns an error exactly when the delta is at most 0
or `name` is not a key, and it never panics; the error is the
invalid-quantity one whenever the delta is at most 0, whether or not `name`
is a key, and the not-found one when the delta is above 0 and `name` is
absent; and whenever an error is returned the inventory is the same value as
before the call. -/
theorem UpdateQuantity_error (inv : Inventory) (name : String) (delta : Int) :
    ((UpdateQuantity inv name delta).2.isError = true ↔
      (delta ≤ 0 ∨ mapGet inv.items name = none)) ∧
    (UpdateQuantity inv name delta).2.isPanic = false ∧
    (delta ≤ 0 →
      (UpdateQuantity inv name delta).2
        = Outcome.returned (some "quantity added should be greater than 0")) ∧
    (0 < delta → mapGet inv.items name = none →
      (UpdateQuantity inv name delta).2
        = Outcome.returned (some ("Item " ++ name ++ " not found"))) ∧
    ((UpdateQuantity inv name delta).2.isError = true →
      (UpdateQuantity inv name delta).1 = inv) := by
  by_cases hd : delta ≤ 0
  · rw [UpdateQuantity_of_nonpos inv name delta hd]
    simp [Outcome.isError, Outcome.isPanic, hd]
  · have hpos : 0 < delta := not_le.mp hd
    cases hg : mapGet inv.items name with
    | none =>
      rw [UpdateQuantity_of_absent inv name delta hpos hg]
      simp [Outcome.isError, Outcome.isPanic, hd]
    | some it =>
      obtain ⟨items, file⟩ := inv
      obtain ⟨es, rfl⟩ := alloc_of_mapGet items name it hg
      have hg' : entriesGet es name = some it := hg
      rw [UpdateQuantity_of_present file es name delta it hpos hg']
      simp [Outcome.isError, Outcome.isPanic, hd, hpos]

/-- C4, on the spec's example: with `widget` at 8, a delta of 0 is refused
with the invalid-quantity error and `widget` stays at 8; a delta of 1 for the
absent `gadget` is refused with the not-found error. -/
theorem UpdateQuantity_error_witness :
    (UpdateQuantity (UpdateQuantity widgetStore "widget" 3).1 "widget" 0).2
      = Outcome.returned (some "quantity added should be greater than 0") ∧
    mapGet (UpdateQuantity (UpdateQuantity widgetStore "widget" 3).1 "widget" 0).1.items "widget"
      = some { Name := "widget", Quantity := 8, Price := price2_5 } ∧
    (UpdateQuantity (UpdateQuantity widgetStore "widget" 3).1 "gadget" 1).2
      = Outcome.returned (some "Item gadget not found") ∧
    (UpdateQuantity (UpdateQuantity widgetStore "widget" 3).1 "gadget" 1).1
      = (UpdateQuantity widgetStore "widget" 3).1 :=
  have h0 := UpdateQuantity_error (UpdateQuantity widgetStore "widget" 3).1 "widget" 0
  have h1 := UpdateQuantity_error (UpdateQuantity widgetStore "widget" 3).1 "gadget" 1
  ⟨h0.2.2.1 (by decide),
   by rw [h0.2.2.2.2 (by rw [h0.2.2.1 (by decide)]; rfl)]; decide,
   h1.2.2.2.1 (by decide) (by decide),
   h1.2.2.2.2 (by rw [h1.2.2.2.1 (by decide) (by decide)]; rfl)⟩

/-! ## Key/name consistency -/

theorem KeyNameConsistent_AddItem (inv : Inventory) (h : KeyNameConsistent inv)
    (name : String) (quantity : Int) (price : Float64) :
    KeyNameConsistent (AddItem inv name quantity price).1 := by
  cases hg : mapGet inv.items name with
  | some it =>
    rw [AddItem_of_present inv name quantity price it hg]
    exact h
  | none =>
    obtain ⟨items, file⟩ := inv
    cases items with
    | nilMap =>
      rw [AddItem_of_nil]
      exact h
    | alloc es =>
      have hg' : entriesGet es name = none := hg
      rw [AddItem_of_alloc file es name quantity price hg']
      intro k item hk
      have hk' : entriesGet (entriesSet es name
          { Name := name, Quantity := quantity, Price := price }) k = some item := hk
      by_cases hkn : k = name
      · subst hkn
        rw [entriesGet_entriesSet_same] at hk'
        cases hk'
        rfl
      · rw [entriesGet_entriesSet_other _ _ _ _ hkn] at hk'
        exact h k item hk'

theorem KeyNameConsistent_UpdateQuantity (inv : Inventory) (h : KeyNameConsistent inv)
    (name : String) (addedQuant : Int) :
    KeyNameConsistent (UpdateQuantity inv name addedQuant).1 := by
  by_cases hd : addedQuant ≤ 0
  · rw [UpdateQuantity_of_nonpos inv name addedQuant hd]
    exact h
  · have hpos : 0 < addedQuant := not_le.mp hd
    cases hg : mapGet inv.items name with
    | none =>
      rw [UpdateQuantity_of_absent inv name addedQuant hpos hg]
      exact h
    | some it =>
      obtain ⟨items, file⟩ := inv
      obtain ⟨es, rfl⟩ := alloc_of_mapGet items name it hg
      have hg' : entriesGet es name = some it := hg
      rw [UpdateQuantity_of_present file es name addedQuant it hpos hg']
      intro k item hk
      have hk' : entriesGet (entriesSet es name
          { Name := it.Name, Quantity := wrapInt (it.Quantity + addedQuant), Price := it.Price })
          k = some item := hk
      by_cases hkn : k = name
      · subst hkn
        rw [entriesGet_entriesSet_same] at hk'
        cases hk'
        exact h k it hg
      · rw [entriesGet_entriesSet_other _ _ _ _ hkn] at hk'
        exact h k item hk'

theorem KeyNameConsistent_runOps (ops : List Op) :
    ∀ inv, KeyNameConsistent inv → KeyNameConsistent (runOps inv ops) := by
  induction ops with
  | nil => intro inv h; exact h
  | cons op rest ih =>
    intro inv h
    have hstep : KeyNameConsistent (applyOp inv op) := by
      cases op with
      | add name quantity price => exact KeyNameConsistent_AddItem inv h name quantity price
      | update name addedQuant => exact KeyNameConsistent_UpdateQuantity inv h name addedQuant
    exact ih (applyOp inv op) hstep

/-- C10: every inventory reached from `NewInventory`'s empty map by a finite
sequence of `AddItem` and `UpdateQuantity` calls, successful or failing, maps
each key to a record whose `Name` is that key; and a single `AddItem` or
`UpdateQuantity` call on any inventory with that property keeps it. -/
theorem KeyNameConsistent_invariant :
    (∀ (filename : String) (ops : List Op),
      KeyNameConsistent (runOps (NewInventory filename) ops)) ∧
    (∀ (inv : Inventory), KeyNameConsistent inv → ∀ (name : String) (quantity : Int)
      (price : Float64), KeyNameConsistent (AddItem inv name quantity price).1) ∧
    (∀ (inv : Inventory), KeyNameConsistent inv → ∀ (name : String) (addedQuant : Int),
      KeyNameConsistent (UpdateQuantity inv name addedQuant).1) := by
  refine ⟨?_, KeyNameConsistent_AddItem, KeyNameConsistent_UpdateQuantity⟩
  intro filename ops
  apply KeyNameConsistent_runOps
  intro k item hk
  simp [NewInventory, mapGet, entriesGet] at hk

/-- C10, on a run with a successful add, a duplicate add, an update, a
refused update and an update of an absent key: the key `widget` of the
result reads a record named `widget`. -/
theorem KeyNameConsistent_invariant_witness :
    mapGet (runOps (NewInventory "inventory.json")
      [Op.add "widget" 5 price2_5, Op.add "widget" 1 price1_0, Op.update "widget" 3,
        Op.update "widget" 0, Op.update "gadget" 1]).items "widget"
      = some { Name := "widget", Quantity := 8, Price := price2_5 } ∧
    ({ Name := "widget", Quantity := 8, Price := price2_5 } : Item).Name = "widget" :=
  ⟨by decide,
   KeyNameConsistent_invariant.1 "inventory.json"
    [Op.add "widget" 5 price2_5, Op.add "widget" 1 price1_0, Op.update "widget" 3,
      Op.update "widget" 0, Op.update "gadget" 1]
    "widget" { Name := "widget", Quantity := 8, Price := price2_5 } (by decide)⟩

/-! ## LoadFromFile and SaveToFile -/

/-- C6: whatever the in-memory map holds, when the backing file does not
exist, or exists and is read as zero bytes, `LoadFromFile` returns no error
and leaves the inventory with an empty map: no key reads a record. -/
theorem LoadFromFile_absent_or_empty (lib : Lib) (fs : FileSystem) (inv : Inventory)
    (h : fs inv.file = FileState.absent ∨ ∃ perm, fs inv.file = FileState.present "" perm) :
    (LoadFromFile lib fs inv).2 = none ∧
    (LoadFromFile lib fs inv).1.items = ItemMap.alloc [] ∧
    (∀ k, mapGet (LoadFromFile lib fs inv).1.items k = none) ∧
    (LoadFromFile lib fs inv).1.file = inv.file := by
  have e : LoadFromFile lib fs inv = ({ inv with items := ItemMap.alloc [] }, none) := by
    rcases h with h | ⟨perm, h⟩
    · simp [LoadFromFile, osReadFile, h]
    · simp [LoadFromFile, osReadFile, h]
  rw [e]
  exact ⟨rfl, rfl, fun _ => rfl, rfl⟩

/-- C6, on a store that already holds `widget`: loading with no file, and
loading a zero-length file, both succeed and leave no key. -/
theorem LoadFromFile_absent_or_empty_witness :
    mapGet widgetStore.items "widget" ≠ none ∧
    (LoadFromFile sampleLib emptyFs widgetStore).2 = none ∧
    mapGet (LoadFromFile sampleLib emptyFs widgetStore).1.items "widget" = none ∧
    (LoadFromFile sampleLib blankFileFs widgetStore).2 = none ∧
    (LoadFromFile sampleLib blankFileFs widgetStore).1.items = ItemMap.alloc [] :=
  have ha := LoadFromFile_absent_or_empty sampleLib emptyFs widgetStore (Or.inl rfl)
  have hb := LoadFromFile_absent_or_empty sampleLib blankFileFs widgetStore
    (Or.inr ⟨0o644, by decide⟩)
  ⟨by decide, ha.1, ha.2.2.1 "widget", hb.1, hb.2.1⟩

/-- C7 fails on the code: when the encoding succeeds and the backing file
does not exist yet, `SaveToFile` succeeds and the file is created with the
requested mode 0666, which is not 0644 and grants the write bit to group and
to others. -/
theorem SaveToFile_requests_0666 (lib : Lib) (w : World) (inv : Inventory) (data : String)
    (hm : lib.jsonMarshalIndent inv.items = Except.ok data)
    (hf : w.fs inv.file = FileState.absent) :
    (SaveToFile lib w inv).2 = none ∧
    (SaveToFile lib w inv).1.fs inv.file = FileState.present data 0o666 ∧
    savePerm ≠ 0o644 ∧
    savePerm &&& 0o020 = 0o020 ∧
    savePerm &&& 0o002 = 0o002 := by
  refine ⟨?_, ?_, by decide, by decide, by decide⟩
  · simp [SaveToFile, hm, osWriteFile, World.print, hf]
  · simp [SaveToFile, hm, osWriteFile, World.print, hf, savePerm]

/-- C7, evaluated on a first save of the empty store. -/
theorem SaveToFile_requests_0666_witness :
    (SaveToFile sampleLib blankWorld (NewInventory "inventory.json")).1.fs
      "inventory.json" = FileState.present "{}" 438 :=
  (SaveToFile_requests_0666 sampleLib blankWorld
    (NewInventory "inventory.json") "{}" rfl rfl).2.1

theorem foldl_digits_ge (digits : List Char) (n : Nat) :
    n ≤ digits.foldl (fun n c => n * 10 + (c.toNat - 48)) n := by
  induction digits generalizing n with
  | nil => exact le_refl n
  | cons c cs ih =>
    have h := ih (n * 10 + (c.toNat - 48))
    simp only [List.foldl_cons]
    omega

theorem parseUintLoop_digits (digits tail : List Char) (n : Nat)
    (hall : ∀ c ∈ digits, isDecimalDigit c) (hn : n ≤ 18446744073709551615) :
    parseUintLoop (digits ++ tail) n =
      if digits.foldl (fun n c => n * 10 + (c.toNat - 48)) n ≤ 18446744073709551615 then
        parseUintLoop tail (digits.foldl (fun n c => n * 10 + (c.toNat - 48)) n)
      else (18446744073709551615, some NumError.ErrRange) := by
  induction digits generalizing n with
  | nil => simp [hn]
  | cons c cs ih =>
    have hc : 48 ≤ c.toNat ∧ c.toNat ≤ 57 := hall c (List.mem_cons_self _ _)
    have hcs : ∀ c ∈ cs, isDecimalDigit c := fun x hx => hall x (List.mem_cons_of_mem _ hx)
    have hge := foldl_digits_ge cs (n * 10 + (c.toNat - 48))
    have hcut : maxUint64 / 10 + 1 = 1844674407370955162 := by decide
    have hmax : maxUint64 = 18446744073709551615 := rfl
    simp only [List.cons_append, List.foldl_cons]
    rw [parseUintLoop, if_pos hc, hcut, hmax]
    by_cases h1 : n ≥ 1844674407370955162
    · rw [if_pos h1, if_neg (by omega)]
    · rw [if_neg h1]
      by_cases h2 : n * 10 + (c.toNat - 48) > 18446744073709551615
      · rw [if_pos h2, if_neg (by omega)]
      · rw [if_neg h2, ih _ hcs (by omega)]

theorem ParseUint_digits (digits : List Char) (hne : digits ≠ [])
    (hall : ∀ c ∈ digits, isDecimalDigit c) :
    ParseUint digits =
      if decimalValue digits ≤ 18446744073709551615 then (decimalValue digits, none)
      else (18446744073709551615, some NumError.ErrRange) := by
  have h := parseUintLoop_digits digits [] 0 hall (by omega)
  rw [List.append_nil] at h
  cases digits with
  | nil => exact absurd rfl hne
  | cons c cs =>
    show parseUintLoop (c :: cs) 0 = _
    rw [h]
    rfl

theorem ParseUint_junk (digits : List Char) (c : Char) (tail : List Char)
    (hall : ∀ d ∈ digits, isDecimalDigit d) (hc : ¬ isDecimalDigit c)
    (hval : decimalValue digits ≤ 18446744073709551615) :
    ParseUint (digits ++ c :: tail) = (0, some NumError.ErrSyntax) := by
  have h := parseUintLoop_digits digits (c :: tail) 0 hall (by omega)
  have hval' : digits.foldl (fun n c => n * 10 + (c.toNat - 48)) 0 ≤ 18446744073709551615 := hval
  rw [if_pos hval'] at h
  have hloop : ∀ n, parseUintLoop (c :: tail) n = (0, some NumError.ErrSyntax) := by
    intro n
    have hc' : ¬ (48 ≤ c.toNat ∧ c.toNat ≤ 57) := hc
    rw [parseUintLoop, if_neg hc']
  rw [hloop] at h
  cases hd : digits ++ c :: tail with
  | nil => simp at hd
  | cons x xs =>
    show parseUintLoop (x :: xs) 0 = _
    rw [← hd, h]

theorem ParseUint_overflow (digits tail : List Char)
    (hall : ∀ d ∈ digits, isDecimalDigit d)
    (hval : decimalValue digits > 18446744073709551615) :
    ParseUint (digits ++ tail) = (18446744073709551615, some NumError.ErrRange) := by
  have h := parseUintLoop_digits digits tail 0 hall (by omega)
  have hval' : ¬ digits.foldl (fun n c => n * 10 + (c.toNat - 48)) 0 ≤ 18446744073709551615 :=
    not_le.mpr hval
  rw [if_neg hval'] at h
  cases hd : digits ++ tail with
  | nil =>
    have hnil : digits = [] := (List.append_eq_nil.mp hd).1
    subst hnil
    simp [decimalValue] at hval
  | cons x xs =>
    show parseUintLoop (x :: xs) 0 = _
    rw [← hd, h]

theorem parseIntSigned_digits (digits : List Char) (hne : digits ≠ [])
    (hall : ∀ c ∈ digits, isDecimalDigit c) :
    parseIntSigned false digits =
      (if decimalValue digits ≤ 9223372036854775807 then ((decimalValue digits : Int), none)
       else (maxInt, some NumError.ErrRange)) ∧
    parseIntSigned true digits =
      (if decimalValue digits ≤ 9223372036854775808 then (-(decimalValue digits : Int), none)
       else (minInt, some NumError.ErrRange)) := by
  unfold parseIntSigned
  rw [ParseUint_digits digits hne hall]
  by_cases h : decimalValue digits ≤ 18446744073709551615
  · rw [if_pos h]
    constructor
    · by_cases h1 : decimalValue digits ≤ 9223372036854775807
      · have h1' : ¬ decimalValue digits ≥ 9223372036854775808 := by omega
        simp [h1, h1']
      · have h1' : decimalValue digits ≥ 9223372036854775808 := by omega
        simp [h1, h1']
    · by_cases h1 : decimalValue digits ≤ 9223372036854775808
      · have h1' : ¬ decimalValue digits > 9223372036854775808 := by omega
        simp [h1, h1']
      · have h1' : decimalValue digits > 9223372036854775808 := by omega
        simp [h1, h1']
  · rw [if_neg h]
    have h1 : ¬ decimalValue digits ≤ 9223372036854775807 := by omega
    have h2 : ¬ decimalValue digits ≤ 9223372036854775808 := by omega
    simp [h1, h2]

theorem parseIntSigned_junk (neg : Bool) (digits : List Char) (c : Char) (tail : List Char)
    (hall : ∀ d ∈ digits, isDecimalDigit d) (hc : ¬ isDecimalDigit c)
    (hval : decimalValue digits ≤ 18446744073709551615) :
    parseIntSigned neg (digits ++ c :: tail) = (0, some NumError.ErrSyntax) := by
  unfold parseIntSigned
  rw [ParseUint_junk digits c tail hall hc hval]

theorem parseIntSigned_overflow (digits tail : List Char)
    (hall : ∀ d ∈ digits, isDecimalDigit d)
    (hval : decimalValue digits > 18446744073709551615) :
    parseIntSigned false (digits ++ tail) = (maxInt, some NumError.ErrRange) ∧
    parseIntSigned true (digits ++ tail) = (minInt, some NumError.ErrRange) := by
  unfold parseIntSigned
  rw [ParseUint_overflow digits tail hall hval]
  constructor <;> simp

theorem parseIntSigned_empty (neg : Bool) :
    parseIntSigned neg [] = (0, some NumError.ErrSyntax) := rfl

theorem Atoi_plus (rest : List Char) :
    Atoi (String.mk ('+' :: rest)) = parseIntSigned false rest := rfl

theorem Atoi_minus (rest : List Char) :
    Atoi (String.mk ('-' :: rest)) = parseIntSigned true rest := rfl

theorem Atoi_unsigned (c : Char) (rest : List Char) (hp : c ≠ '+') (hm : c ≠ '-') :
    Atoi (String.mk (c :: rest)) = parseIntSigned false (c :: rest) := by
  unfold Atoi
  split
  · rename_i h
    simp at h
  · rename_i r h
    simp at h
    exact absurd h.1 hp
  · rename_i r h
    simp at h
    exact absurd h.1 hm
  · rename_i cs h1 h2 h3
    rfl

theorem digit_ne_sign (c : Char) (h : isDecimalDigit c) : c ≠ '+' ∧ c ≠ '-' := by
  constructor
  · intro hc
    subst hc
    exact absurd h (by decide)
  · intro hc
    subst hc
    exact absurd h (by decide)

theorem parseIntSigned_syntax (neg : Bool) (digits : List Char)
    (h : (parseIntSigned neg digits).2 = some NumError.ErrSyntax) :
    (parseIntSigned neg digits).1 = 0 := by
  unfold parseIntSigned at h ⊢
  rcases hp : ParseUint digits with ⟨un, e⟩
  rw [hp] at h
  rcases e with _ | e
  · simp only at h ⊢
    split_ifs at h ⊢ <;> simp_all
  · cases e
    · rfl
    · simp only at h ⊢
      split_ifs at h ⊢ <;> simp_all

theorem parseIntSigned_range (neg : Bool) (digits : List Char)
    (h : (parseIntSigned neg digits).2 = some NumError.ErrRange) :
    (parseIntSigned neg digits).1 = maxInt ∨ (parseIntSigned neg digits).1 = minInt := by
  unfold parseIntSigned at h ⊢
  rcases hp : ParseUint digits with ⟨un, e⟩
  rw [hp] at h
  rcases e with _ | e
  · simp only at h ⊢
    split_ifs at h ⊢ <;> simp_all
  · cases e
    · simp at h
    · simp only at h ⊢
      split_ifs at h ⊢ <;> simp_all

theorem Atoi_syntax (line : String) (h : (Atoi line).2 = some NumError.ErrSyntax) :
    (Atoi line).1 = 0 := by
  unfold Atoi at h ⊢
  split at h
  · rfl
  · exact parseIntSigned_syntax _ _ h
  · exact parseIntSigned_syntax _ _ h
  · exact parseIntSigned_syntax _ _ h

theorem Atoi_range (line : String) (h : (Atoi line).2 = some NumError.ErrRange) :
    (Atoi line).1 = maxInt ∨ (Atoi line).1 = minInt := by
  unfold Atoi at h ⊢
  split at h
  · simp at h
  · exact parseIntSigned_range _ _ h
  · exact parseIntSigned_range _ _ h
  · exact parseIntSigned_range _ _ h

theorem ParseFloat_syntax (lib : Lib) (line : String)
    (h : (ParseFloat lib line).2 = some NumError.ErrSyntax) :
    (ParseFloat lib line).1 = zeroFloat := by
  unfold ParseFloat at h ⊢
  cases hft : lib.floatText line with
  | malformed => rfl
  | overflow neg => cases neg <;> simp [hft] at h
  | number x => simp [hft] at h

theorem ParseFloat_range (lib : Lib) (line : String)
    (h : (ParseFloat lib line).2 = some NumError.ErrRange) :
    (ParseFloat lib line).1 = posInf ∨ (ParseFloat lib line).1 = negInf := by
  unfold ParseFloat at h ⊢
  cases hft : lib.floatText line with
  | malformed => simp [hft] at h
  | overflow neg => cases neg <;> simp
  | number x => simp [hft] at h

/-! ## Menu loop -/

/-- C8 as stated fails, for the quantity and for the price. The quantity
line `9223372036854775808` makes the integer parse report a range error, yet
option 2 passes 9223372036854775807 to `UpdateQuantity` (the update is
applied, where a 0 would have been refused and left the store as it was).
In option 1 the quantity line `-9223372036854775809` and the price line
`1e999` both make their parse report a range error, and the record stored
holds the quantity -9223372036854775808 and the price +Inf. -/
theorem menu_zero_on_error_counterexample :
    (Atoi "9223372036854775808").2 = some NumError.ErrRange ∧
    (caseUpdate bigUpdateProc).inventory
      = (UpdateQuantity widgetStore "widget" 9223372036854775807).1 ∧
    mapGet (caseUpdate bigUpdateProc).inventory.items "widget"
      = some { Name := "widget", Quantity := -9223372036854775804, Price := price2_5 } ∧
    (caseUpdate bigUpdateProc).inventory ≠ (UpdateQuantity widgetStore "widget" 0).1 ∧
    (Atoi "-9223372036854775809").2 = some NumError.ErrRange ∧
    (ParseFloat sampleLib "1e999").2 = some NumError.ErrRange ∧
    mapGet (caseAdd sampleLib bigAddProc).inventory.items "gadget"
      = some { Name := "gadget", Quantity := -9223372036854775808, Price := posInf } ∧
    (-9223372036854775808 : Int) ≠ 0 ∧
    posInf ≠ zeroFloat := by
  decide

/-- C8, amended: in options 1 and 2 the value passed to `AddItem` and
`UpdateQuantity` is the value the parse returned, whether or not it reported
an error.

Quantity. Whenever the integer parse reports a syntax error the value is 0;
whenever it reports a range error the value is the largest or the smallest
`int`. A line made of one or more decimal digits, with or without a leading
`+` or `-`, is parsed without error to the number it denotes when that
number is in the range of `int`; when it is not, the parse reports a range
error and the value is the largest `int` (no sign or `+`) or the smallest
`int` (`-`). The empty line, a lone sign, and a line in which, after one
optional leading `+` or `-` taken as the sign, a character that is not a
decimal digit comes first or follows digits that still fit 64 unsigned bits,
all report a syntax error, so the value is 0. Digits that no longer fit 64
unsigned bits report the range error whatever follows them.

Price. Whenever the float parse reports a syntax error the value is 0.0;
whenever it reports a range error the value is +Inf or -Inf. -/
theorem menu_numeric_arguments (lib : Lib) (p : Proc) :
    (caseAdd lib p).inventory
      = (AddItem p.inventory p.text (Atoi p.scan.text).1
          (ParseFloat lib p.scan.scan.text).1).1 ∧
    (caseUpdate p).inventory
      = (UpdateQuantity p.inventory p.text (Atoi p.scan.text).1).1 ∧
    (∀ line, (Atoi line).2 = some NumError.ErrSyntax → (Atoi line).1 = 0) ∧
    (∀ line, (Atoi line).2 = some NumError.ErrRange →
      (Atoi line).1 = maxInt ∨ (Atoi line).1 = minInt) ∧
    (∀ digits : List Char, digits ≠ [] → (∀ c ∈ digits, isDecimalDigit c) →
      Atoi (String.mk digits)
        = (if decimalValue digits ≤ 9223372036854775807 then ((decimalValue digits : Int), none)
           else (maxInt, some NumError.ErrRange)) ∧
      Atoi (String.mk ('+' :: digits))
        = (if decimalValue digits ≤ 9223372036854775807 then ((decimalValue digits : Int), none)
           else (maxInt, some NumError.ErrRange)) ∧
      Atoi (String.mk ('-' :: digits))
        = (if decimalValue digits ≤ 9223372036854775808 then (-(decimalValue digits : Int), none)
           else (minInt, some NumError.ErrRange))) ∧
    (Atoi "" = (0, some NumError.ErrSyntax) ∧
      Atoi "+" = (0, some NumError.ErrSyntax) ∧
      Atoi "-" = (0, some NumError.ErrSyntax)) ∧
    (∀ (digits : List Char) (c : Char) (tail : List Char),
      (∀ d ∈ digits, isDecimalDigit d) → ¬ isDecimalDigit c →
      decimalValue digits ≤ 18446744073709551615 →
      Atoi (String.mk ('+' :: (digits ++ c :: tail))) = (0, some NumError.ErrSyntax) ∧
      Atoi (String.mk ('-' :: (digits ++ c :: tail))) = (0, some NumError.ErrSyntax) ∧
      ((digits = [] → c ≠ '+' ∧ c ≠ '-') →
        Atoi (String.mk (digits ++ c :: tail)) = (0, some NumError.ErrSyntax))) ∧
    (∀ (digits tail : List Char), (∀ d ∈ digits, isDecimalDigit d) →
      decimalValue digits > 18446744073709551615 →
      Atoi (String.mk (digits ++ tail)) = (maxInt, some NumError.ErrRange) ∧
      Atoi (String.mk ('+' :: (digits ++ tail))) = (maxInt, some NumError.ErrRange) ∧
      Atoi (String.mk ('-' :: (digits ++ tail))) = (minInt, some NumError.ErrRange)) ∧
    (∀ line, (ParseFloat lib line).2 = some NumError.ErrSyntax →
      (ParseFloat lib line).1 = zeroFloat) ∧
    (∀ line, (ParseFloat lib line).2 = some NumError.ErrRange →
      (ParseFloat lib line).1 = posInf ∨ (ParseFloat lib line).1 = negInf) := by
  refine ⟨?_, ?_, Atoi_syntax, Atoi_range, ?_, ⟨rfl, rfl, rfl⟩, ?_, ?_,
    ParseFloat_syntax lib, ParseFloat_range lib⟩
  · simp only [caseAdd, Proc.println, Proc.scan, Proc.text]
    split <;> rfl
  · simp only [caseUpdate, Proc.println, Proc.scan, Proc.text]
    split <;> rfl
  · intro digits hne hall
    have hs := parseIntSigned_digits digits hne hall
    refine ⟨?_, ?_, ?_⟩
    · cases digits with
      | nil => exact absurd rfl hne
      | cons d ds =>
        have hd := digit_ne_sign d (hall d (List.mem_cons_self _ _))
        rw [Atoi_unsigned d ds hd.1 hd.2]
        exact hs.1
    · rw [Atoi_plus]
      exact hs.1
    · rw [Atoi_minus]
      exact hs.2
  · intro digits c tail hall hc hval
    refine ⟨?_, ?_, ?_⟩
    · rw [Atoi_plus]
      exact parseIntSigned_junk false digits c tail hall hc hval
    · rw [Atoi_minus]
      exact parseIntSigned_junk true digits c tail hall hc hval
    · intro hsign
      have hj := parseIntSigned_junk false digits c tail hall hc hval
      cases digits with
      | nil =>
        have hcs := hsign rfl
        rw [List.nil_append] at hj ⊢
        rw [Atoi_unsigned c tail hcs.1 hcs.2]
        exact hj
      | cons d ds =>
        have hd := digit_ne_sign d (hall d (List.mem_cons_self _ _))
        rw [List.cons_append] at hj ⊢
        rw [Atoi_unsigned d (ds ++ c :: tail) hd.1 hd.2]
        exact hj
  · intro digits tail hall hval
    have ho := parseIntSigned_overflow digits tail hall hval
    refine ⟨?_, ?_, ?_⟩
    · cases digits with
      | nil => simp [decimalValue] at hval
      | cons d ds =>
        have hd := digit_ne_sign d (hall d (List.mem_cons_self _ _))
        rw [List.cons_append] at ho ⊢
        rw [Atoi_unsigned d (ds ++ tail) hd.1 hd.2]
        exact ho.1
    · rw [Atoi_plus]
      exact ho.1
    · rw [Atoi_minus]
      exact ho.2

/-- C8, amended, on concrete lines. `five`, `12x` and `:` report a syntax
error and give 0, so option 2 on `five` is refused and leaves the store as
it was; `9223372036854775808` and `-9223372036854775809` report a range error
and give the largest and the smallest `int`; `-9223372036854775808` and `+42`
are parsed without error; the price line `cheap` gives 0.0 and `1e999` gives
+Inf. -/
theorem menu_numeric_arguments_witness :
    Atoi "five" = (0, some NumError.ErrSyntax) ∧
    Atoi "12x" = (0, some NumError.ErrSyntax) ∧
    Atoi ":" = (0, some NumError.ErrSyntax) ∧
    Atoi "9223372036854775808" = (9223372036854775807, some NumError.ErrRange) ∧
    Atoi "-9223372036854775809" = (-9223372036854775808, some NumError.ErrRange) ∧
    Atoi "-9223372036854775808" = (-9223372036854775808, none) ∧
    Atoi "+42" = (42, none) ∧
    Atoi "99999999999999999999x" = (9223372036854775807, some NumError.ErrRange) ∧
    (caseUpdate wordUpdateProc).inventory = widgetStore ∧
    mapGet (caseAdd sampleLib wordAddProc).inventory.items "gadget"
      = some { Name := "gadget", Quantity := 0, Price := zeroFloat } ∧
    (ParseFloat sampleLib "1e999").1 = posInf :=
  have h := menu_numeric_arguments sampleLib wordUpdateProc
  have ha := menu_numeric_arguments sampleLib wordAddProc
  have hnum := h.2.2.2.2.1
  have hjunk := h.2.2.2.2.2.2.1
  have hover := h.2.2.2.2.2.2.2.1
  ⟨(hjunk [] 'f' ['i', 'v', 'e'] (by decide) (by decide) (by decide)).2.2 (by decide),
   (hjunk ['1', '2'] 'x' [] (by decide) (by decide) (by decide)).2.2 (by decide),
   (hjunk [] ':' [] (by decide) (by decide) (by decide)).2.2 (by decide),
   ((hnum "9223372036854775808".data (by decide) (by decide)).1).trans (by decide),
   ((hnum "9223372036854775809".data (by decide) (by decide)).2.2).trans (by decide),
   ((hnum "9223372036854775808".data (by decide) (by decide)).2.2).trans (by decide),
   ((hnum ['4', '2'] (by decide) (by decide)).2.1).trans (by decide),
   (hover "99999999999999999999".data ['x'] (by decide) (by decide)).1,
   h.2.1.trans (by decide),
   (congrArg (fun inv => mapGet inv.items "gadget") ha.1).trans (by decide),
   (h.2.2.2.2.2.2.2.2.2 "1e999" (by decide)).elim id (fun hneg => absurd hneg (by decide))⟩

/-- Options 1 and 2 print one message after their prompts, the error line
when the store operation returned an error and the success line when it
returned none, and nothing when it panicked. -/
theorem caseAdd_caseUpdate_print_one (lib : Lib) (p : Proc) :
    (caseAdd lib p).world.stdout
      = p.world.stdout ++ ["Enter item name\n", "Enter quantity\n", "Enter price\n"] ++
          (match (AddItem p.inventory p.text (Atoi p.scan.text).1
              (ParseFloat lib p.scan.scan.text).1).2 with
          | Outcome.panicked _ => []
          | Outcome.returned (some err) => ["Error: " ++ err ++ " \n"]
          | Outcome.returned none => ["Item added successfully\n"]) ∧
    (caseUpdate p).world.stdout
      = p.world.stdout ++ ["Enter item name\n", "Enter quantity\n"] ++
          (match (UpdateQuantity p.inventory p.text (Atoi p.scan.text).1).2 with
          | Outcome.panicked _ => []
          | Outcome.returned (some err) => ["Error: " ++ err ++ " \n"]
          | Outcome.returned none => ["Quantity updated successfully\n"]) := by
  constructor
  · simp only [caseAdd, Proc.println, Proc.scan, Proc.text, World.print]
    split <;> simp_all
  · simp only [caseUpdate, Proc.println, Proc.scan, Proc.text, World.print]
    split <;> simp_all

theorem caseSave_of_error (lib : Lib) (q : Proc) (err : String)
    (h : (SaveToFile lib q.world q.inventory).2 = some err) :
    caseSave lib q
      = { q with world := ((SaveToFile lib q.world q.inventory).1.print
            ("Error: " ++ err ++ " \n")).print ("File saved successfully" ++ "\n") } := by
  unfold caseSave
  simp only [h]
  rfl

/-- C9 fails on the code: when option 4 is chosen and `SaveToFile` returns
an error, the iteration prints the error line with its `Error: ` prefix and
then the confirmation `File saved successfully` as well; the loop goes on
with the store unchanged. -/
theorem caseSave_prints_both (lib : Lib) (p : Proc) (rest : List String) (err : String)
    (hin : p.stdin = "4" :: rest)
    (herr : (SaveToFile lib (printMenu p).world p.inventory).2 = some err) :
    (menuStep lib p).world.stdout
      = (SaveToFile lib (printMenu p).world p.inventory).1.stdout
          ++ ["Error: " ++ err ++ " \n", "File saved successfully\n"] ∧
    (menuStep lib p).exited = p.exited ∧
    (menuStep lib p).inventory = p.inventory ∧
    (menuStep lib p).stdin = rest := by
  have htext : (printMenu p).text = "4" := by
    simp [printMenu, Proc.println, Proc.text, hin]
  have hstep : menuStep lib p = caseSave lib (printMenu p).scan := by
    simp [menuStep, htext]
  have hq : (SaveToFile lib (printMenu p).scan.world (printMenu p).scan.inventory).2 = some err :=
    herr
  rw [hstep, caseSave_of_error lib (printMenu p).scan err hq]
  refine ⟨?_, rfl, rfl, ?_⟩
  · show ((SaveToFile lib (printMenu p).world p.inventory).1.stdout ++ _) ++ _ = _
    simp
  · show (printMenu p).stdin.tail = rest
    show p.stdin.tail = rest
    rw [hin]
    rfl

/-- C9, evaluated with `inventory.json` not writable: the output of the
iteration ends with the error line followed by the save confirmation. -/
theorem caseSave_prints_both_witness :
    (menuStep sampleLib saveDeniedProc).world.stdout
      = ["1. Add new item\n", "2. Update quantity\n", "3. Display inventory\n",
         "4. Save the file\n", "5. Exit\n", "Choose an option\n", "Saving data: {}\n",
         "Error: error writing file: open inventory.json: permission denied \n",
         "File saved successfully\n"] :=
  (caseSave_prints_both sampleLib saveDeniedProc []
    "error writing file: open inventory.json: permission denied" rfl (by decide)).1.trans
    (by decide)

end InventoryManagement
